import Mathlib

/-!
Verification of the invoice-extraction pipeline (extractor.py, evaluator.py,
router.py) against its specification.  The Python sources are shallowly
embedded: model responses are plain character lists, `json.loads` is modelled
by an executable strict JSON parser, and the per-file orchestration loops are
modelled as structurally recursive functions over lists of files.
-/

/-- JSON values as produced by Python's `json.loads`.  Numeric literals are
kept as their raw source tokens (the claims under verification never compare
two distinct renderings of the same number, so the float/int distinction of
Python is not needed).  Object keys are kept in first-insertion order with
later duplicate keys overwriting the stored value, as Python's `dict` does. -/
inductive Json where
  | null : Json
  | bool : Bool → Json
  | num : String → Json
  | str : String → Json
  | arr : List Json → Json
  | obj : List (String × Json) → Json

/-- JSON whitespace, as in Python's `json` module (`[ \t\n\r]`). -/
def isJsonWs (c : Char) : Bool :=
  c = ' ' || c = '\t' || c = '\n' || c = '\r'

/-- Drop leading JSON whitespace. -/
def skipWs : List Char → List Char
  | [] => []
  | c :: cs => if isJsonWs c then skipWs cs else c :: cs

/-- Match a literal character sequence at the front of the input, returning
the remainder on success (used for `true` / `false` / `null` / constants and
for modelling `str.removeprefix`). -/
def matchLead : List Char → List Char → Option (List Char)
  | [], s => some s
  | _ :: _, [] => none
  | p :: ps, c :: cs => if c = p then matchLead ps cs else none

/-- Value of one hexadecimal digit. -/
def hexVal (c : Char) : Option Nat :=
  if '0' ≤ c ∧ c ≤ '9' then some (c.toNat - 48)
  else if 'a' ≤ c ∧ c ≤ 'f' then some (c.toNat - 87)
  else if 'A' ≤ c ∧ c ≤ 'F' then some (c.toNat - 55)
  else none

/-- Read four hexadecimal digits (the `XXXX` of a `\uXXXX` escape). -/
def hex4 : List Char → Option (Nat × List Char)
  | a :: b :: c :: d :: rest => do
    let x ← hexVal a
    let y ← hexVal b
    let z ← hexVal c
    let w ← hexVal d
    some (((x * 16 + y) * 16 + z) * 16 + w, rest)
  | _ => none

/-- Body of a JSON string after the opening quote, in strict mode: raw
control characters are rejected, the escapes are exactly those of the JSON
grammar, and `\uXXXX` surrogate pairs are combined.  (A lone surrogate, which
Python would keep as a lone surrogate code unit, has no `Char` representation
and degrades to the code point produced by `Char.ofNat`; no claim exercises
lone surrogates.)  Returns the decoded string and the remainder after the
closing quote. -/
def parseStringBody : Nat → List Char → List Char → Option (String × List Char)
  | 0, _, _ => none
  | _ + 1, _, [] => none
  | fuel + 1, acc, c :: cs =>
    if c = '\"' then some (String.mk acc.reverse, cs)
    else if c = '\\' then
      match cs with
      | [] => none
      | e :: cs2 =>
        if e = '\"' then parseStringBody fuel ('\"' :: acc) cs2
        else if e = '\\' then parseStringBody fuel ('\\' :: acc) cs2
        else if e = '/' then parseStringBody fuel ('/' :: acc) cs2
        else if e = 'b' then parseStringBody fuel (Char.ofNat 8 :: acc) cs2
        else if e = 'f' then parseStringBody fuel (Char.ofNat 12 :: acc) cs2
        else if e = 'n' then parseStringBody fuel ('\n' :: acc) cs2
        else if e = 'r' then parseStringBody fuel ('\r' :: acc) cs2
        else if e = 't' then parseStringBody fuel ('\t' :: acc) cs2
        else if e = 'u' then
          match hex4 cs2 with
          | none => none
          | some (n, cs3) =>
            if 0xD800 ≤ n ∧ n ≤ 0xDBFF then
              match cs3 with
              | '\\' :: 'u' :: cs4 =>
                match hex4 cs4 with
                | some (m, cs5) =>
                  if 0xDC00 ≤ m ∧ m ≤ 0xDFFF then
                    parseStringBody fuel
                      (Char.ofNat (0x10000 + (n - 0xD800) * 0x400 + (m - 0xDC00)) :: acc) cs5
                  else parseStringBody fuel (Char.ofNat n :: acc) cs3
                | none => parseStringBody fuel (Char.ofNat n :: acc) cs3
              | _ => parseStringBody fuel (Char.ofNat n :: acc) cs3
            else parseStringBody fuel (Char.ofNat n :: acc) cs2
        else none
    else if c.toNat < 0x20 then none
    else parseStringBody fuel (c :: acc) cs

/-- Maximal-munch scan of a JSON number token, mirroring the `json` module's
`NUMBER_RE` regex `(-?(?:0|[1-9]\d*))(\.\d+)?([eE][-+]?\d+)?`.  Returns the
token and the remainder, or `none` when no number starts here. -/
def scanNumber (cs : List Char) : Option (List Char × List Char) :=
  let (sign, cs1) :=
    match cs with
    | '-' :: r => (['-'], r)
    | _ => (([] : List Char), cs)
  match cs1 with
  | [] => none
  | c :: r =>
    if c = '0' then some (sign ++ ['0'], r) |>.map (fun (tok, rest) => scanFracExp tok rest)
    else if c.isDigit then
      let ds := r.takeWhile Char.isDigit
      let rest := r.dropWhile Char.isDigit
      some (scanFracExp (sign ++ c :: ds) rest)
    else none
where
  /-- Optional fraction and exponent parts; each is included only when the
  regex group matches in full (a dot or exponent marker with no following
  digit is left unconsumed). -/
  scanFracExp (tok : List Char) (rest : List Char) : List Char × List Char :=
    let (tok1, rest1) :=
      match rest with
      | '.' :: r2 =>
        let ds := r2.takeWhile Char.isDigit
        if ds = [] then (tok, rest) else (tok ++ '.' :: ds, r2.dropWhile Char.isDigit)
      | _ => (tok, rest)
    match rest1 with
    | e :: r3 =>
      if e = 'e' ∨ e = 'E' then
        let (sgn, r4) :=
          match r3 with
          | s :: r5 => if s = '+' ∨ s = '-' then ([s], r5) else (([] : List Char), r3)
          | [] => (([] : List Char), r3)
        let ds := r4.takeWhile Char.isDigit
        if ds = [] then (tok1, rest1) else (tok1 ++ e :: (sgn ++ ds), r4.dropWhile Char.isDigit)
      else (tok1, rest1)
    | [] => (tok1, rest1)

/-- Insert a key/value pair as Python `dict` assignment does: an existing key
keeps its position but receives the new value; a new key is appended. -/
def insertKV : List (String × Json) → String → Json → List (String × Json)
  | [], k, v => [(k, v)]
  | (k', v') :: rest, k, v =>
    if k' = k then (k', v) :: rest else (k', v') :: insertKV rest k v

mutual

/-- Strict JSON value parser, mirroring the Python `json` module's scanner:
dispatch on the first character to string / object / array / literal /
number / non-finite constants.  Fuel decreases on every nested call; the
top-level entry point supplies more than enough fuel for any input. -/
def parseValue : Nat → List Char → Option (Json × List Char)
  | 0, _ => none
  | fuel + 1, cs =>
    match cs with
    | [] => none
    | c :: rest =>
      if c = '\"' then
        (parseStringBody (rest.length + 1) [] rest).map (fun p => (Json.str p.1, p.2))
      else if c = '{' then
        match skipWs rest with
        | '}' :: r2 => some (Json.obj [], r2)
        | r1 => parseMembers fuel [] r1
      else if c = '[' then
        match skipWs rest with
        | ']' :: r2 => some (Json.arr [], r2)
        | r1 => parseElements fuel [] r1
      else if c = 't' then
        (matchLead "rue".data rest).map (fun r => (Json.bool true, r))
      else if c = 'f' then
        (matchLead "alse".data rest).map (fun r => (Json.bool false, r))
      else if c = 'n' then
        (matchLead "ull".data rest).map (fun r => (Json.null, r))
      else
        match scanNumber cs with
        | some (tok, r) => some (Json.num (String.mk tok), r)
        | none =>
          match matchLead "NaN".data cs with
          | some r => some (Json.num "NaN", r)
          | none =>
            match matchLead "Infinity".data cs with
            | some r => some (Json.num "Infinity", r)
            | none =>
              match matchLead "-Infinity".data cs with
              | some r => some (Json.num "-Infinity", r)
              | none => none

/-- Members of an object after `{` (input positioned at the opening quote of
a key).  Mirrors `JSONObject` in the Python scanner: key string, optional
whitespace, `:`, whitespace, value, then `,` (followed by the next quoted
key) or `}`. -/
def parseMembers : Nat → List (String × Json) → List Char → Option (Json × List Char)
  | 0, _, _ => none
  | fuel + 1, acc, cs =>
    match cs with
    | '\"' :: rest =>
      match parseStringBody (rest.length + 1) [] rest with
      | none => none
      | some (key, r1) =>
        match skipWs r1 with
        | ':' :: r2 =>
          match parseValue fuel (skipWs r2) with
          | none => none
          | some (v, r3) =>
            let acc' := insertKV acc key v
            match skipWs r3 with
            | ',' :: r4 =>
              match skipWs r4 with
              | '\"' :: r5 => parseMembers fuel acc' ('\"' :: r5)
              | _ => none
            | '}' :: r4 => some (Json.obj acc', r4)
            | _ => none
        | _ => none
    | _ => none

/-- Elements of an array after `[` (input positioned at the first value,
whitespace already skipped).  Mirrors `JSONArray`: value, then `,` (and more
values) or `]`; a trailing comma is rejected because the next `parseValue`
fails on `]`. -/
def parseElements : Nat → List Json → List Char → Option (Json × List Char)
  | 0, _, _ => none
  | fuel + 1, acc, cs =>
    match parseValue fuel cs with
    | none => none
    | some (v, r1) =>
      match skipWs r1 with
      | ',' :: r2 => parseElements fuel (v :: acc) (skipWs r2)
      | ']' :: r2 => some (Json.arr (v :: acc).reverse, r2)
      | _ => none

end

/-- Model of `json.loads`: skip whitespace, parse exactly one value, and require that
only whitespace remains; `none` models a raised `json.JSONDecodeError`. -/
def parseJsonWhole (cs : List Char) : Option Json :=
  match parseValue (2 * cs.length + 4) (skipWs cs) with
  | some (v, rest) => if skipWs rest = [] then some v else none
  | none => none

/-! ## extractor.py -/

/-- The greedy candidate region of `re.search(r'\{.*\}', text, re.DOTALL)`:
the substring from the first `\x7b` of the text to the last `\x7d` of the
text, provided that last `\x7d` lies after the first `\x7b`; `none` when the
regex does not match. -/
def braceSpan (s : List Char) : Option (List Char) :=
  let t := s.dropWhile (fun c => c ≠ '{')
  let u := (t.reverse.dropWhile (fun c => c ≠ '}')).reverse
  if u.isEmpty then none else some u

/-- Function `extract_json` (extractor.py, lines 64-74): search for the greedy
`\x7b...\x7d` span and strictly parse it; both failure branches (no span
found, span fails to decode) return the same sentinel `None`, distinguished
only by printed warnings. -/
def extract_json (text : List Char) : Option Json :=
  match braceSpan text with
  | some span => parseJsonWhole span
  | none => none

/-- Constant `FILE_HINTS` (extractor.py, lines 16-23). -/
def FILE_HINTS : List (String × String) :=
  [ (".pdf", "The following file is an invoice in PDF format."),
    (".png", "The following file is a scanned image of an invoice."),
    (".jpg", "The following file is a scanned image of an invoice."),
    (".jpeg", "The following file is a scanned image of an invoice."),
    (".xlsx", "The following file is an invoice spreadsheet (.xlsx format)."),
    (".csv", "The following file is an invoice in CSV format.") ]

/-- Constant `BASE_PROMPT` (extractor.py, lines 26-62), reproduced byte-for-byte
(including the trailing spaces on the first two sentence lines). -/
def BASE_PROMPT : String :=
  "\nThe JSON structure shown below is the desired output format. \nExtract the information and return it in this exact JSON format. \nThe extracted data should include client details, seller information, invoice metadata, itemized product details, and payment instructions.\n\nOutput only the JSON. Do not include explanations or formatting.\n\n\x7b\n  \"invoice\": \x7b\n    \"client_name\": \"\",\n    \"client_address\": \"\",\n    \"seller_name\": \"\",\n    \"seller_address\": \"\",\n    \"invoice_number\": \"\",\n    \"invoice_date\": \"\",\n    \"due_date\": \"\"\n  \x7d,\n  \"items\": [\n    \x7b\n      \"description\": \"\",\n      \"quantity\": \"\",\n      \"total_price\": \"\"\n    \x7d\n  ],\n  \"subtotal\": \x7b\n    \"tax\": \"\",\n    \"discount\": \"\",\n    \"total\": \"\"\n  \x7d,\n  \"payment_instructions\": \x7b\n    \"due_date\": \"\",\n    \"bank_name\": \"\",\n    \"account_number\": \"\",\n    \"payment_method\": \"\"\n  \x7d\n\x7d\n"

/-- Association-list lookup, modelling Python `dict.get`. -/
def alistGet : List (String × String) → String → Option String
  | [], _ => none
  | (k, v) :: rest, key => if k = key then some v else alistGet rest key

/-- The default hint of `FILE_HINTS.get(ext, ...)` (extractor.py, line 102):
the generic-document hint used for unrecognized extensions. -/
def genericHint : String := "The following file is an invoice document."

/-- Expression `final_prompt` (extractor.py, lines 102-103) as a function of the
effective extension: the hint selected for the extension (generic default)
followed by the fixed schema prompt. -/
def final_prompt (ext : String) : String :=
  ((alistGet FILE_HINTS ext).getD genericHint) ++ "\n\n" ++ BASE_PROMPT

/-- Model of `os.path.splitext(name)[0]` for a plain file name (no directory
separators): cut at the last dot, unless every character before that dot is
itself a dot (so dotfiles such as `.bashrc` keep their full name). -/
def splitextBase (name : List Char) : List Char :=
  match name.reverse.findIdx? (fun c => c = '.') with
  | none => name
  | some r =>
    let i := name.length - 1 - r
    if (name.take i).any (fun c => c ≠ '.') then name.take i else name

/-- Model of `os.path.splitext(name)[1]`: the extension part (empty when no split). -/
def splitextExt (name : List Char) : List Char :=
  name.drop (splitextBase name).length

/-- The lowercased extension of a file path as computed by
`os.path.splitext(file_path)[1].lower()` (extractor.py, line 88). -/
def extOf (path : List Char) : String :=
  String.mk ((splitextExt path).map Char.toLower)

/-- The extension used for the hint lookup: `extract_invoice` rewrites
`.xlsx` to `.csv` after converting the spreadsheet (extractor.py, line 96),
so the `.xlsx` entry of `FILE_HINTS` is bypassed. -/
def effectiveExt (ext : String) : String :=
  if ext = ".xlsx" then ".csv" else ext

/-- The prompt `extract_invoice` sends for a file path (extractor.py, lines
88-103), whenever it reaches the prompt-building step (an xlsx whose
conversion fails returns `None` before any prompt is built). -/
def promptFor (path : List Char) : String :=
  final_prompt (effectiveExt (extOf path))

/-- Python truthiness of a number token: zero iff every mantissa digit is 0
(`0`, `-0`, `0.00`, `0e5`, ...); the non-finite constants are truthy. -/
def numIsZero (t : String) : Bool :=
  if t = "NaN" ∨ t = "Infinity" ∨ t = "-Infinity" then false
  else ((t.data.takeWhile (fun c => c ≠ 'e' ∧ c ≠ 'E')).filter Char.isDigit).all (fun c => c = '0')

/-- Python truthiness (`if json_data:`) of a parsed JSON value: `None` and
`False` are falsy, numbers are falsy iff zero, strings/lists/dicts are falsy
iff empty. -/
def jsonTruthy : Json → Bool
  | Json.null => false
  | Json.bool b => b
  | Json.num t => !(numIsZero t)
  | Json.str s => !(s.data.isEmpty)
  | Json.arr xs => !xs.isEmpty
  | Json.obj kvs => !kvs.isEmpty

/-- Function `extract_invoice` (extractor.py, lines 86-113), with the model call
abstracted: `none` models the `except` path (API error, or failed xlsx
conversion), `some t` the response text `response.text`; the returned value
is `extract_json` applied to that text. -/
def extract_invoice (resp : Option (List Char)) : Option Json :=
  match resp with
  | none => none
  | some t => extract_json t

/-- Accumulated side effects of `run_extractor`: JSON files written into
`gemini_output` (name and contents) and source files moved into
`error_invoices`. -/
structure ExtractorRun where
  outputs : List (List Char × Json)
  errors : List (List Char)

/-- Disposition of one file in the `run_extractor` loop (extractor.py, lines
127-141): if `json_data` is truthy the record is written to
`gemini_output/<base>.json`; otherwise (`None` or falsy, e.g. an empty
object) the source file is moved to `error_invoices`. -/
def fileStep (file : List Char) (resp : Option (List Char)) : ExtractorRun :=
  match extract_invoice resp with
  | some v =>
    if jsonTruthy v then
      { outputs := [(splitextBase file ++ ".json".data, v)], errors := [] }
    else
      { outputs := [], errors := [file] }
  | none => { outputs := [], errors := [file] }

/-- Function `run_extractor` (extractor.py, lines 115-141) over the flattened batch of
(file name, model response) pairs, in processing order. -/
def run_extractor : List (List Char × Option (List Char)) → ExtractorRun
  | [] => { outputs := [], errors := [] }
  | (file, resp) :: rest =>
    let here := fileStep file resp
    let r := run_extractor rest
    { outputs := here.outputs ++ r.outputs, errors := here.errors ++ r.errors }

/-! ## evaluator.py -/

/-- Characters stripped by Python `str.strip()` for the ASCII range (the
claims never exercise non-ASCII whitespace). -/
def isPySpace (c : Char) : Bool :=
  c = ' ' || c = '\t' || c = '\n' || c = '\r' || c = Char.ofNat 11 || c = Char.ofNat 12

/-- Python `str.strip()`: remove leading and trailing whitespace. -/
def pyStrip (s : List Char) : List Char :=
  ((s.dropWhile isPySpace).reverse.dropWhile isPySpace).reverse

/-- Python `str.removeprefix`: drop a literal leading marker if present. -/
def removeLead (pre s : List Char) : List Char :=
  (matchLead pre s).getD s

/-- Python `str.removesuffix`: drop a literal trailing marker if present. -/
def removeTrail (suf s : List Char) : List Char :=
  ((matchLead suf.reverse s.reverse).map List.reverse).getD s

/-- Expression `cleaned_text` (evaluator.py, line 102):
`res.text.strip().removeprefix("```json").removesuffix("```").strip()`. -/
def cleaned_text (s : List Char) : List Char :=
  pyStrip (removeTrail "```".data (removeLead "```json".data (pyStrip s)))

/-- The evaluator's verdict-recovery path (evaluator.py, lines 102-105):
clean the response text and strictly parse it; `none` models the raised
`json.JSONDecodeError`. -/
def evalParse (s : List Char) : Option Json :=
  parseJsonWhole (cleaned_text s)

/-- Python `str.endswith`: the literal suffix test used by
`file.endswith(".json")`. -/
def endsWithLit (suf s : List Char) : Bool :=
  (matchLead suf.reverse s.reverse).isSome

/-- Dict lookup on parsed JSON objects (keys are unique after `insertKV`). -/
def jlookup : List (String × Json) → String → Option Json
  | [], _ => none
  | (k, v) :: rest, key => if k = key then some v else jlookup rest key

/-- Python `dict.get(key, default)`. -/
def pyGetD (kvs : List (String × Json)) (key : String) (dflt : Json) : Json :=
  (jlookup kvs key).getD dflt

/-- Python `==` between a parsed JSON value and a string literal: true only
when the value is exactly that string. -/
def pyEqStr : Json → String → Bool
  | Json.str s, t => s = t
  | _, _ => false

/-- Python `str()` of a parsed JSON value, used by the f-string
`f"Gemini returned status: \x7bstatus\x7d"`.  Exact for strings (the only case any
claim exercises); numeric tokens are kept verbatim and containers are
rendered in a repr-like style, which may differ from CPython for floats. -/
def pyStr : Json → String
  | Json.null => "None"
  | Json.bool true => "True"
  | Json.bool false => "False"
  | Json.num t => t
  | Json.str s => s
  | Json.arr _ => "[...]"
  | Json.obj _ => "\x7b...\x7d"

/-- One report row: a list of cells (Python appends lists of arbitrary
values; string cells are `Json.str`). -/
abbrev Row : Type := List Json

/-- Rows produced by the `for mismatch in mismatches` loop (evaluator.py,
lines 117-124).  Rows appended before an element raises (a non-dict element
has no `.get`) are kept, matching the mutation of the global `results` list;
the second component carries the pending exception, if any. -/
def mismatchRows (base : String) : List Json → List Row × Option String
  | [] => ([], none)
  | Json.obj kvs :: rest =>
    let row : Row :=
      [Json.str base, Json.str "Mismatch",
       pyGetD kvs "field" (Json.str "N/A"),
       pyGetD kvs "expected" (Json.str "N/A"),
       pyGetD kvs "actual" (Json.str "N/A")]
    let (rows, err) := mismatchRows base rest
    (row :: rows, err)
  | _ :: _ => ([], some "AttributeError: object has no attribute get")

/-- Steps 4-5 of the evaluator loop on a recovered verdict (evaluator.py,
lines 107-126): classify `overall_status` and append the corresponding
row(s).  The second component carries an exception raised mid-way (a
non-dict verdict, or a non-iterable / ill-typed mismatches value), which the
enclosing `except Exception` turns into a generic error row; the exception
message text is abstracted. -/
def verdict_rows (base : String) : Json → List Row × Option String
  | Json.obj kvs =>
    let status := pyGetD kvs "overall_status" (Json.str "Parse Error")
    if pyEqStr status "Pass" then
      ([[Json.str base, Json.str "Pass", Json.str "-", Json.str "-", Json.str "-"]], none)
    else if pyEqStr status "Mismatch" then
      let mismatches := pyGetD kvs "mismatches" (Json.arr [])
      if jsonTruthy mismatches = false then
        ([[Json.str base, Json.str "Mismatch", Json.str "Unknown",
           Json.str "Gemini reported a mismatch but did not provide details",
           Json.str "-"]], none)
      else
        match mismatches with
        | Json.arr xs => mismatchRows base xs
        | _ => ([], some "TypeError or AttributeError while iterating mismatches")
    else
      ([[Json.str base, Json.str "Error", Json.str "Invalid Status",
         Json.str ("Gemini returned status: " ++ pyStr status), Json.str "-"]], none)
  | _ => ([], some "AttributeError: object has no attribute get")

/-- All rows appended for one evaluated file from its raw verdict response
text (evaluator.py, lines 101-133): clean-and-parse, then classify; a decode
failure appends the `Invalid JSON Verdict` row carrying the raw response,
and an exception inside the verdict handling appends the generic
`API or other Error` row after any rows already appended. -/
def evalRows (base : String) (txt : List Char) : List Row :=
  match evalParse txt with
  | none =>
    [[Json.str base, Json.str "Error", Json.str "Invalid JSON Verdict",
      Json.str (String.mk txt), Json.str "-"]]
  | some d =>
    match verdict_rows base d with
    | (rows, none) => rows
    | (rows, some msg) =>
      rows ++ [[Json.str base, Json.str "Error", Json.str "API or other Error",
                Json.str msg, Json.str "-"]]

/-- Result of the whole evaluator loop: the accumulated `results` rows and
the list of files for which the model was actually called
(`model.generate_content`). -/
structure EvalRun where
  rows : List Row
  calls : List (List Char)

/-- The evaluator orchestration loop (evaluator.py, lines 77-133) over the
(already sorted) ground-truth directory listing.  `present` lists the file
names existing in `gemini_output`; `oracle` gives the verdict response text
for a file whose comparison is attempted.  Non-`.json` entries are skipped;
a ground-truth file with no matching output contributes exactly the
`Missing Output` row and no model call. -/
def eval_loop (present : List (List Char)) (oracle : List Char → List Char) :
    List (List Char) → EvalRun
  | [] => { rows := [], calls := [] }
  | file :: rest =>
    let r := eval_loop present oracle rest
    if endsWithLit ".json".data file = false then r
    else
      let base := String.mk (splitextBase file)
      if file ∈ present then
        { rows := evalRows base (oracle file) ++ r.rows, calls := file :: r.calls }
      else
        { rows := [Json.str base, Json.str "Missing Output", Json.str "-",
                   Json.str "-", Json.str "-"] :: r.rows,
          calls := r.calls }

/-! ## Helper lemmas -/

theorem dropWhileAppendAll {p : Char → Bool} {a : List Char} (b : List Char)
    (h : ∀ c ∈ a, p c = true) :
    (a ++ b).dropWhile p = b.dropWhile p := by
  induction a with
  | nil => rfl
  | cons x xs ih =>
    have hx : p x = true := h x (by simp)
    simp only [List.cons_append, List.dropWhile_cons, hx, if_true]
    exact ih (fun c hc => h c (by simp [hc]))

theorem dropWhileConsFalse {p : Char → Bool} {x : Char} (xs : List Char)
    (h : p x = false) :
    (x :: xs).dropWhile p = x :: xs := by
  simp [List.dropWhile_cons, h]

theorem headDecompose {l : List Char} {c : Char} (h : l.head? = some c) :
    ∃ t, l = c :: t := by
  cases l with
  | nil => simp at h
  | cons x t => exact ⟨t, by simp_all⟩

theorem lastConcat (l : List Char) (c : Char) : (l ++ [c]).getLast? = some c := by
  rw [← List.head?_reverse]
  simp

theorem lastDecompose {l : List Char} {c : Char} (h : l.getLast? = some c) :
    ∃ t, l = t ++ [c] := by
  have hr : l.reverse.head? = some c := by rw [List.head?_reverse]; exact h
  obtain ⟨t, ht⟩ := headDecompose hr
  refine ⟨t.reverse, ?_⟩
  rw [← l.reverse_reverse, ht]
  simp

theorem matchLeadSelf (p s : List Char) : matchLead p (p ++ s) = some s := by
  induction p with
  | nil => rfl
  | cons x xs ih => simp [matchLead, ih]

theorem matchLeadNoMatch {pc c : Char} (pt s : List Char) (h : c ≠ pc) :
    matchLead (pc :: pt) (c :: s) = none := by
  simp [matchLead, h]

theorem removeTrailSelf (suf x : List Char) : removeTrail suf (x ++ suf) = x := by
  unfold removeTrail
  rw [List.reverse_append, matchLeadSelf]
  simp

/-- The greedy `\x7b...\x7d` span of a text that is a `\x7b...\x7d`-delimited block
surrounded by junk containing no `\x7b` before it and no `\x7d` after it is
exactly that block. -/
theorem braceSpanEmbed (pre post j : List Char)
    (h1 : '{' ∉ pre) (h2 : '}' ∉ post)
    (h3 : j.head? = some '{') (h4 : j.getLast? = some '}') :
    braceSpan (pre ++ j ++ post) = some j := by
  obtain ⟨t0, hj0⟩ := headDecompose h3
  obtain ⟨t1, hj1⟩ := lastDecompose h4
  have hpre : ∀ c ∈ pre, (decide (c ≠ '{')) = true := by
    intro c hc
    simp only [decide_eq_true_eq]
    exact fun hcc => h1 (hcc ▸ hc)
  have e1 : (pre ++ j ++ post).dropWhile (fun c => c ≠ '{') = j ++ post := by
    rw [List.append_assoc, dropWhileAppendAll _ hpre, hj0, List.cons_append,
      dropWhileConsFalse _ (by simp), ← List.cons_append, ← hj0]
  have hpost : ∀ c ∈ post.reverse, (decide (c ≠ '}')) = true := by
    intro c hc
    simp only [decide_eq_true_eq]
    exact fun hcc => h2 (hcc ▸ (List.mem_reverse.mp hc))
  have e2 : ((j ++ post).reverse).dropWhile (fun c => c ≠ '}') = j.reverse := by
    rw [List.reverse_append, dropWhileAppendAll _ hpost, hj1, List.reverse_append]
    simp only [List.reverse_cons, List.reverse_nil, List.nil_append, List.singleton_append]
    rw [dropWhileConsFalse _ (by simp)]
  have hne : j ≠ [] := by rw [hj0]; simp
  unfold braceSpan
  simp only [e1, e2, List.reverse_reverse]
  simp [hne]

/-- Applying `extract_json` to junk-wrapped object text parses exactly the wrapped
block. -/
theorem extractJsonEmbed (pre post j : List Char)
    (h1 : '{' ∉ pre) (h2 : '}' ∉ post)
    (h3 : j.head? = some '{') (h4 : j.getLast? = some '}') :
    extract_json (pre ++ j ++ post) = parseJsonWhole j := by
  unfold extract_json
  rw [braceSpanEmbed pre post j h1 h2 h3 h4]

/-- Stripping (`str.strip()`) whitespace-padded text whose core starts with `\x7b` and
ends with `\x7d` recovers the core. -/
theorem pyStripWrap (a b j : List Char)
    (ha : ∀ c ∈ a, isPySpace c = true) (hb : ∀ c ∈ b, isPySpace c = true)
    (h3 : j.head? = some '{') (h4 : j.getLast? = some '}') :
    pyStrip (a ++ j ++ b) = j := by
  obtain ⟨t0, hj0⟩ := headDecompose h3
  obtain ⟨t1, hj1⟩ := lastDecompose h4
  have e1 : (a ++ j ++ b).dropWhile isPySpace = j ++ b := by
    rw [List.append_assoc, dropWhileAppendAll _ ha, hj0, List.cons_append,
      dropWhileConsFalse _ (by simp [isPySpace]), ← List.cons_append, ← hj0]
  have hbrev : ∀ c ∈ b.reverse, isPySpace c = true := by
    intro c hc
    exact hb c (List.mem_reverse.mp hc)
  have e2 : ((j ++ b).reverse).dropWhile isPySpace = j.reverse := by
    rw [List.reverse_append, dropWhileAppendAll _ hbrev, hj1, List.reverse_append]
    simp only [List.reverse_cons, List.reverse_nil, List.nil_append, List.singleton_append]
    rw [dropWhileConsFalse _ (by simp [isPySpace])]
  unfold pyStrip
  rw [e1, e2, List.reverse_reverse]

/-- Stripping (`str.strip()`) leaves a text alone when its first and last characters are
not whitespace. -/
theorem pyStripId {s : List Char} {c d : Char}
    (hh : s.head? = some c) (hc : isPySpace c = false)
    (hl : s.getLast? = some d) (hd : isPySpace d = false) :
    pyStrip s = s := by
  obtain ⟨t0, rfl⟩ := headDecompose hh
  obtain ⟨t1, hj1⟩ := lastDecompose hl
  unfold pyStrip
  rw [dropWhileConsFalse _ hc, hj1, List.reverse_append]
  simp only [List.reverse_cons, List.reverse_nil, List.nil_append, List.singleton_append]
  rw [dropWhileConsFalse _ hd]
  simp

/-- Cleaning a ```json-fenced object text recovers exactly the fenced block
(evaluator.py, line 102). -/
theorem cleanedFence (j : List Char)
    (h3 : j.head? = some '{') (h4 : j.getLast? = some '}') :
    cleaned_text ("```json\n".data ++ j ++ "\n```".data) = j := by
  have hsplit : "```json\n".data ++ j ++ "\n```".data
      = ("```json\n".data ++ j ++ "\n``".data) ++ ['`'] := by
    rw [List.append_assoc, List.append_assoc, List.append_assoc]
    rfl
  have hh : ("```json\n".data ++ j ++ "\n```".data).head? = some '`' := by rfl
  have hl : ("```json\n".data ++ j ++ "\n```".data).getLast? = some '`' := by
    rw [hsplit]
    exact lastConcat _ _
  have stepA : pyStrip ("```json\n".data ++ j ++ "\n```".data)
      = "```json\n".data ++ j ++ "\n```".data :=
    pyStripId hh (by decide) hl (by decide)
  have hre : "```json\n".data ++ j ++ "\n```".data
      = "```json".data ++ ('\n' :: (j ++ "\n```".data)) := by
    rw [List.append_assoc]
    rfl
  have stepB : removeLead "```json".data ("```json\n".data ++ j ++ "\n```".data)
      = '\n' :: (j ++ "\n```".data) := by
    rw [hre]
    unfold removeLead
    rw [matchLeadSelf]
    rfl
  have hre2 : '\n' :: (j ++ "\n```".data) = ('\n' :: (j ++ ['\n'])) ++ "```".data := by
    simp [List.append_assoc]
  have stepC : removeTrail "```".data ('\n' :: (j ++ "\n```".data))
      = '\n' :: (j ++ ['\n']) := by
    rw [hre2]
    exact removeTrailSelf _ _
  have hre3 : '\n' :: (j ++ ['\n']) = ['\n'] ++ j ++ ['\n'] := by
    simp
  unfold cleaned_text
  rw [stepA, stepB, stepC, hre3]
  exact pyStripWrap _ _ _ (by decide) (by decide) h3 h4

/-- Cleaning a bare object text leaves it alone: no fence marker matches and
the ends are not whitespace. -/
theorem cleanedBare (j : List Char)
    (h3 : j.head? = some '{') (h4 : j.getLast? = some '}') :
    cleaned_text j = j := by
  obtain ⟨t0, hj0⟩ := headDecompose h3
  obtain ⟨t1, hj1⟩ := lastDecompose h4
  have stepA : pyStrip j = j := pyStripId h3 (by decide) h4 (by decide)
  have stepB : removeLead "```json".data j = j := by
    unfold removeLead
    rw [hj0, show "```json".data = '`' :: "``json".data from rfl,
      matchLeadNoMatch _ _ (by decide)]
    rfl
  have stepC : removeTrail "```".data j = j := by
    unfold removeTrail
    have hr : j.reverse = '}' :: t1.reverse := by rw [hj1]; simp
    rw [hr, show ("```".data).reverse = '`' :: "``".data from rfl,
      matchLeadNoMatch _ _ (by decide)]
    rfl
  unfold cleaned_text
  rw [stepA, stepB, stepC, stepA]

/-- Function `run_extractor` distributes over batch concatenation (outputs). -/
theorem runExtractorOutputsAppend (xs ys : List (List Char × Option (List Char))) :
    (run_extractor (xs ++ ys)).outputs
      = (run_extractor xs).outputs ++ (run_extractor ys).outputs := by
  induction xs with
  | nil => simp [run_extractor]
  | cons e xs ih =>
    obtain ⟨file, resp⟩ := e
    simp [run_extractor, ih, List.append_assoc]

/-- Function `run_extractor` distributes over batch concatenation (errors). -/
theorem runExtractorErrorsAppend (xs ys : List (List Char × Option (List Char))) :
    (run_extractor (xs ++ ys)).errors
      = (run_extractor xs).errors ++ (run_extractor ys).errors := by
  induction xs with
  | nil => simp [run_extractor]
  | cons e xs ih =>
    obtain ⟨file, resp⟩ := e
    simp [run_extractor, ih, List.append_assoc]

/-- Function `eval_loop` distributes over concatenation of the file listing (rows). -/
theorem evalLoopRowsAppend (present : List (List Char)) (oracle : List Char → List Char)
    (xs ys : List (List Char)) :
    (eval_loop present oracle (xs ++ ys)).rows
      = (eval_loop present oracle xs).rows ++ (eval_loop present oracle ys).rows := by
  induction xs with
  | nil => simp [eval_loop]
  | cons f ft ih =>
    simp only [List.cons_append, eval_loop]
    split_ifs <;> simp [ih, List.append_assoc]

/-- Function `eval_loop` distributes over concatenation of the file listing (calls). -/
theorem evalLoopCallsAppend (present : List (List Char)) (oracle : List Char → List Char)
    (xs ys : List (List Char)) :
    (eval_loop present oracle (xs ++ ys)).calls
      = (eval_loop present oracle xs).calls ++ (eval_loop present oracle ys).calls := by
  induction xs with
  | nil => simp [eval_loop]
  | cons f ft ih =>
    simp only [List.cons_append, eval_loop]
    split_ifs <;> simp [ih]

/-- The mismatch loop over a list of well-formed (dict) entries appends one
row per entry and raises nothing. -/
theorem mismatchRowsMap (base : String) (ks : List (List (String × Json))) :
    mismatchRows base (ks.map Json.obj)
      = (ks.map (fun kvs =>
          [Json.str base, Json.str "Mismatch",
           pyGetD kvs "field" (Json.str "N/A"),
           pyGetD kvs "expected" (Json.str "N/A"),
           pyGetD kvs "actual" (Json.str "N/A")]), none) := by
  induction ks with
  | nil => rfl
  | cons k kt ih => simp [mismatchRows, ih]

/-! ## Claim theorems -/

/-- Claim C1 (amended): `extract_json` returns the sentinel `None` instead of
raising both when no `\x7b...\x7d` span exists and when the span fails strict
parsing; the two failure kinds are NOT distinguishable in the returned value
(both are `None`) — they are distinguished only in printed warnings. -/
theorem extract_json_failure_sentinel (s : List Char) :
    (braceSpan s = none → extract_json s = none) ∧
    (∀ u, braceSpan s = some u → parseJsonWhole u = none → extract_json s = none) := by
  constructor
  · intro h
    simp [extract_json, h]
  · intro u h1 h2
    simp [extract_json, h1, h2]

/-- Claim C1 witness: a text with no brace span and a text whose span is
invalid JSON both yield the sentinel `None`. -/
theorem extract_json_failure_sentinel_witness :
    extract_json "model returned nothing useful".data = none ∧
    extract_json "\x7bnot valid json\x7d".data = none :=
  ⟨(extract_json_failure_sentinel _).1 rfl,
   (extract_json_failure_sentinel _).2 ("\x7bnot valid json\x7d".data) rfl rfl⟩

/-- Claim C1 counterexample: the claim asserts the two failure results
differ, but `extract_json` returns the very same value (`None`) for a text
with no `\x7b...\x7d` span and for a span with invalid syntax. -/
theorem extract_json_failure_kinds_counterexample :
    extract_json "no json block here".data = none ∧
    extract_json "\x7binvalid json\x7d".data = none ∧
    extract_json "no json block here".data = extract_json "\x7binvalid json\x7d".data :=
  ⟨rfl, rfl, rfl⟩

/-- Claim C4: for an object text `j` (first character `\x7b`, last character
`\x7d`) wrapped in any junk that contributes no `\x7b` before it and no `\x7d` after
it — a markdown code fence or prose — the candidate region attempted is the
greedy first-`\x7b`-to-last-`\x7d` span, which is exactly `j`, and `extract_json`
returns exactly the strict parse of `j`. -/
theorem extract_json_recovers_wrapped_object (pre post j : List Char)
    (h1 : '{' ∉ pre) (h2 : '}' ∉ post)
    (h3 : j.head? = some '{') (h4 : j.getLast? = some '}') :
    braceSpan (pre ++ j ++ post) = some j ∧
    extract_json (pre ++ j ++ post) = parseJsonWhole j :=
  ⟨braceSpanEmbed pre post j h1 h2 h3 h4, extractJsonEmbed pre post j h1 h2 h3 h4⟩

/-- Claim C4 witness: a fenced valid JSON object is recovered as its strict
parse, and the attempted span is the object text itself. -/
theorem extract_json_recovers_wrapped_object_witness :
    extract_json "```json\n\x7b\"a\": \"b\"\x7d\n```".data
      = some (Json.obj [("a", Json.str "b")]) ∧
    braceSpan "```json\n\x7b\"a\": \"b\"\x7d\n```".data = some ("\x7b\"a\": \"b\"\x7d".data) := by
  have h := extract_json_recovers_wrapped_object "```json\n".data "\n```".data
    ("\x7b\"a\": \"b\"\x7d".data) (by decide) (by decide) rfl rfl
  have heq : "```json\n".data ++ "\x7b\"a\": \"b\"\x7d".data ++ "\n```".data
      = "```json\n\x7b\"a\": \"b\"\x7d\n```".data := rfl
  rw [heq] at h
  exact ⟨h.2.trans rfl, h.1⟩

/-- Claim C2 (amended): the extractor's `extract_json` and the evaluator's
cleanup-and-parse agree on responses that are a bare JSON object text or a
```json-fenced JSON object text, but the two recovery paths are not
equivalent on all response texts (see the counterexample). -/
theorem verdict_and_extraction_paths_agree_on_object_texts (j : List Char)
    (h3 : j.head? = some '{') (h4 : j.getLast? = some '}') :
    evalParse ("```json\n".data ++ j ++ "\n```".data)
      = extract_json ("```json\n".data ++ j ++ "\n```".data) ∧
    evalParse j = extract_json j := by
  constructor
  · unfold evalParse
    rw [cleanedFence j h3 h4, extractJsonEmbed _ _ _ (by decide) (by decide) h3 h4]
  · unfold evalParse
    rw [cleanedBare j h3 h4]
    have h := extractJsonEmbed [] [] j (by simp) (by simp) h3 h4
    simp only [List.nil_append, List.append_nil] at h
    rw [h]

/-- Claim C2 witness: both recovery paths return the same parse on a fenced
object text and on the bare object text. -/
theorem verdict_and_extraction_paths_agree_witness :
    evalParse "```json\n\x7b\"total\": \"100\"\x7d\n```".data
      = extract_json "```json\n\x7b\"total\": \"100\"\x7d\n```".data ∧
    evalParse "\x7b\"total\": \"100\"\x7d".data = extract_json "\x7b\"total\": \"100\"\x7d".data := by
  have h := verdict_and_extraction_paths_agree_on_object_texts
    ("\x7b\"total\": \"100\"\x7d".data) rfl rfl
  have heq : "```json\n".data ++ "\x7b\"total\": \"100\"\x7d".data ++ "\n```".data
      = "```json\n\x7b\"total\": \"100\"\x7d\n```".data := rfl
  rw [heq] at h
  exact h

/-- Claim C2 counterexample: on a response with prose around the object the
extractor's span search recovers the object while the evaluator's
cleanup-and-parse fails, so the two paths do not return the same outcome for
every response text. -/
theorem verdict_and_extraction_paths_counterexample :
    extract_json "Verdict: \x7b\x7d".data = some (Json.obj []) ∧
    evalParse "Verdict: \x7b\x7d".data = none ∧
    extract_json "Verdict: \x7b\x7d".data ≠ evalParse "Verdict: \x7b\x7d".data := by
  refine ⟨rfl, rfl, ?_⟩
  intro h
  rw [show extract_json "Verdict: \x7b\x7d".data = some (Json.obj []) from rfl,
    show evalParse "Verdict: \x7b\x7d".data = none from rfl] at h
  exact Option.noConfusion h

/-- Claim C3: every file in the extraction batch, wherever it occurs,
receives exactly one terminal disposition in `run_extractor` — either one
output JSON file keyed by the document's base name with `.json` appended, or
one relocation to the error collection — never both and never neither. -/
theorem run_extractor_disposition_exclusive_exhaustive
    (fs1 fs2 : List (List Char × Option (List Char)))
    (file : List Char) (resp : Option (List Char)) :
    ((run_extractor (fs1 ++ (file, resp) :: fs2)).outputs
        = (run_extractor fs1).outputs ++ (fileStep file resp).outputs
            ++ (run_extractor fs2).outputs ∧
      (run_extractor (fs1 ++ (file, resp) :: fs2)).errors
        = (run_extractor fs1).errors ++ (fileStep file resp).errors
            ++ (run_extractor fs2).errors) ∧
    (fileStep file resp).outputs.length + (fileStep file resp).errors.length = 1 ∧
    ((∃ v, extract_invoice resp = some v ∧ jsonTruthy v = true ∧
        (fileStep file resp).outputs = [(splitextBase file ++ ".json".data, v)] ∧
        (fileStep file resp).errors = []) ∨
      ((fileStep file resp).outputs = [] ∧ (fileStep file resp).errors = [file])) := by
  refine ⟨⟨?_, ?_⟩, ?_, ?_⟩
  · rw [runExtractorOutputsAppend]
    simp [run_extractor, List.append_assoc]
  · rw [runExtractorErrorsAppend]
    simp [run_extractor, List.append_assoc]
  · unfold fileStep
    cases h : extract_invoice resp with
    | none => simp
    | some v =>
      by_cases ht : jsonTruthy v <;> simp [ht]
  · cases h : extract_invoice resp with
    | none =>
      right
      unfold fileStep
      rw [h]
      exact ⟨rfl, rfl⟩
    | some v =>
      by_cases ht : jsonTruthy v
      · left
        refine ⟨v, rfl, ht, ?_, ?_⟩ <;> (unfold fileStep; rw [h]; simp [ht])
      · right
        unfold fileStep
        rw [h]
        simp [ht]

/-- Claim C10: a model response whose recovered JSON is the valid but empty
object `\x7b\x7d` is treated as a failure by the orchestrator's truthiness test: the
file is moved to the error collection and no output record is written. -/
theorem empty_object_treated_as_failure
    (fs1 fs2 : List (List Char × Option (List Char)))
    (file : List Char) (resp : Option (List Char))
    (h : extract_invoice resp = some (Json.obj [])) :
    (run_extractor (fs1 ++ (file, resp) :: fs2)).errors
      = (run_extractor fs1).errors ++ file :: (run_extractor fs2).errors ∧
    (run_extractor (fs1 ++ (file, resp) :: fs2)).outputs
      = (run_extractor fs1).outputs ++ (run_extractor fs2).outputs := by
  have hstep : fileStep file resp = { outputs := [], errors := [file] } := by
    unfold fileStep
    rw [h]
    simp [jsonTruthy]
  constructor
  · rw [runExtractorErrorsAppend]
    simp [run_extractor, hstep]
  · rw [runExtractorOutputsAppend]
    simp [run_extractor, hstep]

/-- Claim C10 witness: a response of exactly `\x7b\x7d` sends the file to the
error bucket and produces no output, even though JSON recovery succeeded. -/
theorem empty_object_treated_as_failure_witness :
    (run_extractor [("inv7.pdf".data, some "\x7b\x7d".data)]).errors = ["inv7.pdf".data] ∧
    (run_extractor [("inv7.pdf".data, some "\x7b\x7d".data)]).outputs = [] ∧
    extract_json "\x7b\x7d".data = some (Json.obj []) := by
  have h := empty_object_treated_as_failure [] [] "inv7.pdf".data (some "\x7b\x7d".data) rfl
  refine ⟨?_, ?_, rfl⟩
  · exact h.1.trans (by simp [run_extractor])
  · exact h.2.trans (by simp [run_extractor])

/-- Claim C5: a recovered Mismatch verdict with N ≥ 1 itemized (dict)
entries appends exactly N rows, one per entry, each carrying the file's base
name and that entry's field/expected/actual values; a Pass verdict appends
exactly one row with `-` placeholders in the non-status columns. -/
theorem mismatch_verdict_row_counts (base : String) (kvs kvsP : List (String × Json))
    (ks : List (List (String × Json)))
    (h1 : jlookup kvs "overall_status" = some (Json.str "Mismatch"))
    (h2 : jlookup kvs "mismatches" = some (Json.arr (ks.map Json.obj)))
    (h3 : ks ≠ [])
    (hp : jlookup kvsP "overall_status" = some (Json.str "Pass")) :
    verdict_rows base (Json.obj kvs)
      = (ks.map (fun k =>
          [Json.str base, Json.str "Mismatch",
           pyGetD k "field" (Json.str "N/A"),
           pyGetD k "expected" (Json.str "N/A"),
           pyGetD k "actual" (Json.str "N/A")]), none) ∧
    (verdict_rows base (Json.obj kvs)).1.length = ks.length ∧
    verdict_rows base (Json.obj kvsP)
      = ([[Json.str base, Json.str "Pass", Json.str "-", Json.str "-", Json.str "-"]],
         none) := by
  obtain ⟨k0, kt, rfl⟩ : ∃ k0 kt, ks = k0 :: kt := by
    cases ks with
    | nil => exact absurd rfl h3
    | cons a b => exact ⟨a, b, rfl⟩
  have emain : verdict_rows base (Json.obj kvs)
      = ((k0 :: kt).map (fun k =>
          [Json.str base, Json.str "Mismatch",
           pyGetD k "field" (Json.str "N/A"),
           pyGetD k "expected" (Json.str "N/A"),
           pyGetD k "actual" (Json.str "N/A")]), none) := by
    simp only [verdict_rows]
    rw [show pyGetD kvs "overall_status" (Json.str "Parse Error") = Json.str "Mismatch" by
        simp [pyGetD, h1],
      show pyGetD kvs "mismatches" (Json.arr []) = Json.arr ((k0 :: kt).map Json.obj) by
        simp [pyGetD, h2]]
    rw [show pyEqStr (Json.str "Mismatch") "Pass" = false from by decide,
      show pyEqStr (Json.str "Mismatch") "Mismatch" = true from by decide]
    simp only [Bool.false_eq_true, if_false, if_true]
    rw [show jsonTruthy (Json.arr ((k0 :: kt).map Json.obj)) = true from by
        simp [jsonTruthy]]
    simp only [Bool.true_eq_false, if_false]
    exact mismatchRowsMap base (k0 :: kt)
  refine ⟨emain, ?_, ?_⟩
  · rw [emain]
    simp
  · simp only [verdict_rows]
    rw [show pyGetD kvsP "overall_status" (Json.str "Parse Error") = Json.str "Pass" by
        simp [pyGetD, hp],
      show pyEqStr (Json.str "Pass") "Pass" = true from by decide]
    simp

/-- Claim C5 witness: a Mismatch verdict with two itemized entries yields
exactly two rows carrying the entries' values, and a Pass verdict yields the
single placeholder row. -/
theorem mismatch_verdict_row_counts_witness :
    verdict_rows "inv3" (Json.obj
      [("overall_status", Json.str "Mismatch"),
       ("mismatches", Json.arr
         [Json.obj [("field", Json.str "total"), ("expected", Json.str "$100.00"),
                    ("actual", Json.str "100.00")],
          Json.obj [("field", Json.str "due_date"), ("expected", Json.str "2024-01-01"),
                    ("actual", Json.str "2024-02-01")]])])
      = ([[Json.str "inv3", Json.str "Mismatch", Json.str "total",
           Json.str "$100.00", Json.str "100.00"],
          [Json.str "inv3", Json.str "Mismatch", Json.str "due_date",
           Json.str "2024-01-01", Json.str "2024-02-01"]], none) ∧
    verdict_rows "inv4" (Json.obj [("overall_status", Json.str "Pass"),
        ("mismatches", Json.arr [])])
      = ([[Json.str "inv4", Json.str "Pass", Json.str "-", Json.str "-", Json.str "-"]],
         none) := by
  have h := mismatch_verdict_row_counts "inv3"
    [("overall_status", Json.str "Mismatch"),
     ("mismatches", Json.arr
       [Json.obj [("field", Json.str "total"), ("expected", Json.str "$100.00"),
                  ("actual", Json.str "100.00")],
        Json.obj [("field", Json.str "due_date"), ("expected", Json.str "2024-01-01"),
                  ("actual", Json.str "2024-02-01")]])]
    [("overall_status", Json.str "Pass"), ("mismatches", Json.arr [])]
    [[("field", Json.str "total"), ("expected", Json.str "$100.00"),
      ("actual", Json.str "100.00")],
     [("field", Json.str "due_date"), ("expected", Json.str "2024-01-01"),
      ("actual", Json.str "2024-02-01")]]
    rfl rfl (by simp) rfl
  have h5 := mismatch_verdict_row_counts "inv4"
    [("overall_status", Json.str "Mismatch"),
     ("mismatches", Json.arr [Json.obj []])]
    [("overall_status", Json.str "Pass"), ("mismatches", Json.arr [])]
    [[]] rfl rfl (by simp) rfl
  exact ⟨h.1.trans rfl, h5.2.2⟩

/-- Claim C6: a recovered verdict with `overall_status = "Mismatch"` and an
empty mismatches list appends exactly one mismatch-labelled row whose detail
cell explains that the model supplied no detail; it is never recorded as a
Pass row. -/
theorem degraded_mismatch_single_row (base : String) (kvs : List (String × Json))
    (h1 : jlookup kvs "overall_status" = some (Json.str "Mismatch"))
    (h2 : jlookup kvs "mismatches" = some (Json.arr [])) :
    verdict_rows base (Json.obj kvs)
      = ([[Json.str base, Json.str "Mismatch", Json.str "Unknown",
           Json.str "Gemini reported a mismatch but did not provide details",
           Json.str "-"]], none) ∧
    ∀ row ∈ (verdict_rows base (Json.obj kvs)).1,
      row.get? 1 = some (Json.str "Mismatch") ∧ row.get? 1 ≠ some (Json.str "Pass") := by
  have emain : verdict_rows base (Json.obj kvs)
      = ([[Json.str base, Json.str "Mismatch", Json.str "Unknown",
           Json.str "Gemini reported a mismatch but did not provide details",
           Json.str "-"]], none) := by
    simp only [verdict_rows]
    rw [show pyGetD kvs "overall_status" (Json.str "Parse Error") = Json.str "Mismatch" by
        simp [pyGetD, h1],
      show pyGetD kvs "mismatches" (Json.arr []) = Json.arr [] by simp [pyGetD, h2]]
    rw [show pyEqStr (Json.str "Mismatch") "Pass" = false from by decide,
      show pyEqStr (Json.str "Mismatch") "Mismatch" = true from by decide]
    simp [jsonTruthy]
  refine ⟨emain, ?_⟩
  intro row hrow
  rw [emain] at hrow
  simp only [List.mem_singleton] at hrow
  subst hrow
  refine ⟨rfl, ?_⟩
  intro hcontra
  simp at hcontra

/-- Claim C6 witness: the degraded verdict yields exactly the flagged
mismatch row. -/
theorem degraded_mismatch_single_row_witness :
    verdict_rows "inv5" (Json.obj
      [("overall_status", Json.str "Mismatch"), ("mismatches", Json.arr [])])
      = ([[Json.str "inv5", Json.str "Mismatch", Json.str "Unknown",
           Json.str "Gemini reported a mismatch but did not provide details",
           Json.str "-"]], none) :=
  (degraded_mismatch_single_row "inv5"
    [("overall_status", Json.str "Mismatch"), ("mismatches", Json.arr [])]
    rfl rfl).1

/-- Claim C7: a recovered verdict object whose `overall_status` is a string
other than "Pass"/"Mismatch", or which lacks the key entirely (defaulting to
"Parse Error"), appends exactly one error row carrying the offending status
string, and no other rows. -/
theorem invalid_status_single_error_row (base : String) (kvs : List (String × Json))
    (s : String) :
    (jlookup kvs "overall_status" = some (Json.str s) → s ≠ "Pass" → s ≠ "Mismatch" →
      verdict_rows base (Json.obj kvs)
        = ([[Json.str base, Json.str "Error", Json.str "Invalid Status",
             Json.str ("Gemini returned status: " ++ s), Json.str "-"]], none)) ∧
    (jlookup kvs "overall_status" = none →
      verdict_rows base (Json.obj kvs)
        = ([[Json.str base, Json.str "Error", Json.str "Invalid Status",
             Json.str ("Gemini returned status: " ++ "Parse Error"), Json.str "-"]],
           none)) := by
  constructor
  · intro h hp hm
    simp only [verdict_rows]
    rw [show pyGetD kvs "overall_status" (Json.str "Parse Error") = Json.str s by
        simp [pyGetD, h]]
    rw [show pyEqStr (Json.str s) "Pass" = false by simp [pyEqStr, hp],
      show pyEqStr (Json.str s) "Mismatch" = false by simp [pyEqStr, hm]]
    simp [pyStr]
  · intro h
    simp only [verdict_rows]
    rw [show pyGetD kvs "overall_status" (Json.str "Parse Error") = Json.str "Parse Error" by
        simp [pyGetD, h]]
    rw [show pyEqStr (Json.str "Parse Error") "Pass" = false from by decide,
      show pyEqStr (Json.str "Parse Error") "Mismatch" = false from by decide]
    simp [pyStr]

/-- Claim C7 witness: an unrecognized status string and an absent status key
each yield exactly the single `Invalid Status` error row. -/
theorem invalid_status_single_error_row_witness :
    verdict_rows "inv6" (Json.obj [("overall_status", Json.str "Maybe")])
      = ([[Json.str "inv6", Json.str "Error", Json.str "Invalid Status",
           Json.str "Gemini returned status: Maybe", Json.str "-"]], none) ∧
    verdict_rows "inv6b" (Json.obj [("comment", Json.str "no status")])
      = ([[Json.str "inv6b", Json.str "Error", Json.str "Invalid Status",
           Json.str "Gemini returned status: Parse Error", Json.str "-"]], none) := by
  have ha := (invalid_status_single_error_row "inv6"
    [("overall_status", Json.str "Maybe")] "Maybe").1 rfl (by decide) (by decide)
  have hb := (invalid_status_single_error_row "inv6b"
    [("comment", Json.str "no status")] "unused").2 rfl
  exact ⟨ha.trans rfl, hb.trans rfl⟩

/-- Claim C8: a ground-truth `.json` file with no matching extracted-output
file contributes exactly one `Missing Output` row with placeholder cells, no
model call is made for it, no exception is raised (the loop is a total
function), and the files before and after it are processed unchanged. -/
theorem missing_output_row_no_model_call (present : List (List Char))
    (oracle : List Char → List Char) (fs1 fs2 : List (List Char)) (file : List Char)
    (h1 : endsWithLit ".json".data file = true) (h2 : file ∉ present) :
    (eval_loop present oracle (fs1 ++ file :: fs2)).rows
      = (eval_loop present oracle fs1).rows
        ++ [Json.str (String.mk (splitextBase file)), Json.str "Missing Output",
            Json.str "-", Json.str "-", Json.str "-"]
          :: (eval_loop present oracle fs2).rows ∧
    (eval_loop present oracle (fs1 ++ file :: fs2)).calls
      = (eval_loop present oracle fs1).calls ++ (eval_loop present oracle fs2).calls := by
  constructor
  · rw [evalLoopRowsAppend]
    simp [eval_loop, h1, h2]
  · rw [evalLoopCallsAppend]
    simp [eval_loop, h1, h2]

/-- Claim C8 witness: one missing-output ground-truth file between two
present ones yields its single `Missing Output` row, is never sent to the
model, and does not stop the neighbouring files from being processed. -/
theorem missing_output_row_no_model_call_witness :
    (eval_loop ["other.json".data] (fun _ => "x".data) ["gt2.json".data]).rows
      = [[Json.str "gt2", Json.str "Missing Output", Json.str "-", Json.str "-",
          Json.str "-"]] ∧
    (eval_loop ["other.json".data] (fun _ => "x".data) ["gt2.json".data]).calls = [] := by
  have h := missing_output_row_no_model_call ["other.json".data] (fun _ => "x".data)
    [] [] "gt2.json".data rfl (by decide)
  constructor
  · exact h.1.trans
      (by simp [eval_loop, show String.mk (splitextBase "gt2.json".data) = "gt2" from rfl])
  · exact h.2.trans (by simp [eval_loop])

/-- Claim C9: the extraction prompt is a pure deterministic function of the
file extension: it decomposes as the hint sentence selected for the
(effective) extension — the generic-document hint when the extension is
unrecognized — followed by the fixed schema template `BASE_PROMPT`, which is
identical for all document types; any two paths with the same extension get
the same prompt. -/
theorem prompt_pure_function_of_extension (path : List Char) :
    (∃ hint : String,
      promptFor path = hint ++ "\n\n" ++ BASE_PROMPT ∧
      ((alistGet FILE_HINTS (effectiveExt (extOf path)) = some hint) ∨
       (alistGet FILE_HINTS (effectiveExt (extOf path)) = none ∧ hint = genericHint))) ∧
    (∀ q : List Char, extOf q = extOf path → promptFor q = promptFor path) := by
  constructor
  · cases h : alistGet FILE_HINTS (effectiveExt (extOf path)) with
    | none =>
      exact ⟨genericHint, by simp [promptFor, final_prompt, h], Or.inr ⟨rfl, rfl⟩⟩
    | some hint =>
      exact ⟨hint, by simp [promptFor, final_prompt, h], Or.inl rfl⟩
  · intro q hq
    simp [promptFor, hq]

/-- Claim C9 witness: two differently named files with the same (lowercased)
extension get the identical prompt, whose content is the PDF hint followed
by the shared schema template. -/
theorem prompt_pure_function_of_extension_witness :
    promptFor "invoiceA.PDF".data = promptFor "other_invoice.pdf".data ∧
    promptFor "invoiceA.PDF".data
      = "The following file is an invoice in PDF format." ++ "\n\n" ++ BASE_PROMPT := by
  have h := prompt_pure_function_of_extension "other_invoice.pdf".data
  exact ⟨h.2 "invoiceA.PDF".data rfl, rfl⟩
